import Mathlib

/-!
Verification development for the gterm terminal emulator's graphics core
(`src/gterm/gterm.py` and `src/grid.py`).

Shallow embedding conventions:
* Python floats are modelled as exact rationals (`ℚ`).  All arithmetic the
  claims touch is exact at the inputs considered; places where binary
  floating point could diverge from exact rational arithmetic are noted at
  the definition concerned.
* Python exceptions are modelled with `Except`: any raised exception is an
  `.error` value, and code that does not catch it propagates the error.
* Mutable object state (`self.…`) is modelled by explicit state records
  threaded through the functions.
-/

deriving instance DecidableEq for Except

namespace Gterm

/-- Base-10 logarithm, rounded down, of a natural number (`natLog10 n = e`
with `10^e ≤ n < 10^(e+1)` for `n ≥ 1`), written with a fuel argument so it
is structurally recursive. -/
def natLog10Aux : ℕ → ℕ → ℕ
  | 0, _ => 0
  | f + 1, n => if n < 10 then 0 else 1 + natLog10Aux f (n / 10)

/-- See `natLog10Aux`; `n` itself is always enough fuel. -/
def natLog10 (n : ℕ) : ℕ := natLog10Aux n n

/-- Python's `math.floor(math.log(q, 10) + 1e-9)` for `q > 0`, modelled as the
exact integer `e` with `10^e ≤ q < 10^(e+1)`.  The `1e-9` fudge term in the
source exists to cancel binary-float noise of `math.log` at exact powers of
ten; with exact rational arithmetic the fudge is a no-op except on a
relative window of width about `10^-9` below each power of ten, which we
idealise away.  On `q ≤ 0` (where Python `math.log` raises) callers guard
before calling; the value returned here is then irrelevant. -/
def flog10 (q : ℚ) : ℤ :=
  if 1 ≤ q then (natLog10 ⌊q⌋.toNat : ℤ)
  else
    let r := 1 / q
    let e := natLog10 ⌊r⌋.toNat
    if r = (10 : ℚ) ^ e then -(e : ℤ) else -(e : ℤ) - 1

/-- `grid.py::tick_step`.  `step_table = [10, 5, 2, 1]`; the Python loop
`for i in range(1,4): if residual > step_table[i]: return step_table[i-1]*magnitude`
is unrolled into the three conditionals below.  Python raises
(`ZeroDivisionError` or `math domain error`) when `data_range / max_ticks`
is not positive; that is the `.error` case. -/
def tick_step (data_range max_ticks : ℚ) : Except Unit ℚ :=
  let minimum_step := data_range / max_ticks
  if minimum_step ≤ 0 then .error ()
  else
    let magnitude : ℚ := (10 : ℚ) ^ flog10 minimum_step
    let residual := minimum_step / magnitude
    .ok (if residual > 5 then 10 * magnitude
         else if residual > 2 then 5 * magnitude
         else if residual > 1 then 2 * magnitude
         else magnitude)

/-- `grid.py::tick_values`.  `int(math.floor(x))` is `⌊x⌋`, `int(math.ceil(x))`
is `⌈x⌉`; the Python literal `1e-9` is modelled as the exact `1/10^9`. -/
def tick_values (data_min data_max max_ticks : ℚ) : Except Unit (List ℚ) :=
  if |data_min - data_max| < 1 / (10 : ℚ) ^ 9 then .ok []
  else
    let mn := if data_min > data_max then data_max else data_min
    let mx := if data_min > data_max then data_min else data_max
    match tick_step (mx - mn) max_ticks with
    | .error e => .error e
    | .ok step =>
      let istep_min : ℤ := ⌊mn / step⌋
      let istep_max : ℤ := ⌈mx / step⌉ + 1
      .ok ((List.range (istep_max - istep_min).toNat).map
            (fun (i : ℕ) => ((istep_min + (i : ℤ) : ℤ) : ℚ) * step))

/-- Round to the nearest integer, ties to even: the rounding Python's
`'{0:.2f}'.format` applies to the (here: exact) value being formatted. -/
def roundHalfEven (q : ℚ) : ℤ :=
  let f := ⌊q⌋
  let r := q - (f : ℚ)
  if r < 1 / 2 then f
  else if 1 / 2 < r then f + 1
  else if f % 2 = 0 then f else f + 1

/-- `'{0:.2f}'.format(q)`: sign, integer digits, dot, exactly two fractional
digits.  The sign is taken from `q` itself so that small negative values
format as `-0.00`, as CPython does.  (CPython formats the binary double
nearest to the written decimal; at every value appearing in this
development the two agree.) -/
def format2f (q : ℚ) : String :=
  let n := (roundHalfEven (|q| * 100)).toNat
  let sign := if q < 0 then "-" else ""
  let frac := n % 100
  sign ++ toString (n / 100) ++ "." ++ (if frac < 10 then "0" else "") ++ toString frac

/-- `grid.py::tick_labels.trail_0_suppress`: drop the final character when it
is `'0'` (a single character only, and never the dot).  Python indexes
`valstr[-1]`, which raises on an empty string; `format2f` never returns one,
so the `[]` case is unreachable and maps to the identity. -/
def trail_0_suppress (s : String) : String :=
  match s.data.getLast? with
  | some '0' => String.mk s.data.dropLast
  | _ => s

/-- `grid.py::tick_labels`.  `tick_vals[0]`/`tick_vals[-1]` raise on an empty
list (`.error`), and `math.log` raises when the max absolute value is not
positive (`.error`).  `magnitude = 10^e` exactly, so the scale suffix
`str(int(math.floor(math.log(magnitude,10)+1e-9)))` is `toString e`. -/
def tick_labels (tick_vals : List ℚ) : Except Unit (List String × String) :=
  match tick_vals.head?, tick_vals.getLast? with
  | some v0, some vl =>
    let maxvalue := max |v0| |vl|
    if maxvalue ≤ 0 then .error ()
    else
      let e := flog10 maxvalue
      let magnitude : ℚ := (10 : ℚ) ^ e
      if magnitude < 1 / 10 ∨ magnitude > 10 then
        .ok (tick_vals.map (fun v => trail_0_suppress (format2f (v / magnitude))),
             "x 10^" ++ toString e)
      else
        .ok (tick_vals.map (fun v => trail_0_suppress (format2f v)), "")
  | _, _ => .error ()

/-! ### Python string and number primitives used by the decoder -/

/-- Numeric value of a list of decimal digit characters. -/
def digitsVal (ds : List Char) : ℕ :=
  ds.foldl (fun a c => 10 * a + (c.toNat - 48)) 0

/-- `chr(n)`.  `Char.ofNat` yields `'\0'` on invalid code points where Python
would raise; all payload bytes in scope are valid code points. -/
def charOfCode (n : ℕ) : Char := Char.ofNat n

/-- Strip leading and trailing whitespace, as Python's `int`/`float` parsers
do before parsing. -/
def stripWS (cs : List Char) : List Char :=
  ((cs.dropWhile Char.isWhitespace).reverse.dropWhile Char.isWhitespace).reverse

/-- Exponent part of a Python float literal (the text after `e`/`E`):
an optional sign followed by at least one digit, nothing else. -/
def parseUExp (cs : List Char) : Option ℤ :=
  let p : ℤ × List Char :=
    match cs with
    | '+' :: t => (1, t)
    | '-' :: t => (-1, t)
    | _ => (1, cs)
  let ds := p.2.takeWhile Char.isDigit
  if ds = [] ∨ p.2.dropWhile Char.isDigit ≠ [] then none
  else some (p.1 * (digitsVal ds : ℤ))

/-- Unsigned mantissa of a Python float literal: digits, an optional `.` and
fraction digits (at least one digit on one side of the dot), and an optional
`e`/`E` exponent.  Consumes the whole input or fails. -/
def parseMantExp (cs : List Char) : Option ℚ :=
  let ip := cs.takeWhile Char.isDigit
  let r1 := cs.dropWhile Char.isDigit
  match r1 with
  | [] => if ip = [] then none else some (digitsVal ip : ℚ)
  | '.' :: t =>
    let fp := t.takeWhile Char.isDigit
    let r2 := t.dropWhile Char.isDigit
    if ip = [] ∧ fp = [] then none
    else
      let m : ℚ := (digitsVal ip : ℚ) + (digitsVal fp : ℚ) / (10 : ℚ) ^ fp.length
      match r2 with
      | [] => some m
      | 'e' :: t2 => (parseUExp t2).map (fun e => m * (10 : ℚ) ^ e)
      | 'E' :: t2 => (parseUExp t2).map (fun e => m * (10 : ℚ) ^ e)
      | _ => none
  | 'e' :: t2 =>
    if ip = [] then none
    else (parseUExp t2).map (fun e => (digitsVal ip : ℚ) * (10 : ℚ) ^ e)
  | 'E' :: t2 =>
    if ip = [] then none
    else (parseUExp t2).map (fun e => (digitsVal ip : ℚ) * (10 : ℚ) ^ e)
  | _ => none

/-- Python `float(s)` on the character list `s`, idealised to the exact
decimal value (the claims concern decode structure, not double rounding).
`inf`/`nan` spellings and digit-group underscores are not modelled; every
token in scope is plain decimal.  Raises (`.error`) exactly when CPython's
parser would reject the text. -/
def pyFloat (cs : List Char) : Except Unit ℚ :=
  let cs1 := stripWS cs
  let p : ℚ × List Char :=
    match cs1 with
    | '+' :: t => (1, t)
    | '-' :: t => (-1, t)
    | _ => (1, cs1)
  match parseMantExp p.2 with
  | some m => .ok (p.1 * m)
  | none => .error ()

/-- Python `int(s)`: optional sign then at least one digit, nothing else
(after whitespace stripping). -/
def pyInt (cs : List Char) : Except Unit ℤ :=
  let cs1 := stripWS cs
  let p : ℤ × List Char :=
    match cs1 with
    | '+' :: t => (1, t)
    | '-' :: t => (-1, t)
    | _ => (1, cs1)
  if p.2 = [] ∨ ¬ p.2.all Char.isDigit then .error ()
  else .ok (p.1 * (digitsVal p.2 : ℤ))

/-- `gterm.py::lint`: join the character codes into a string and `int` it. -/
def lint (codes : List ℕ) : Except Unit ℤ :=
  pyInt (codes.map charOfCode)

/-- `gterm.py::lfcol`: colour field, `int / 999.0`. -/
def lfcol (codes : List ℕ) : Except Unit ℚ :=
  (lint codes).map (fun i => (i : ℚ) / 999)

/-- `gterm.py::lfwid`: width field, `int / 99.0`. -/
def lfwid (codes : List ℕ) : Except Unit ℚ :=
  (lint codes).map (fun i => (i : ℚ) / 99)

/-- `gterm.py::lfpos`: coordinate field, `int / 9999.0`. -/
def lfpos (codes : List ℕ) : Except Unit ℚ :=
  (lint codes).map (fun i => (i : ℚ) / 9999)

/-- Python `s.replace(pat, rep)` for a non-empty `pat`: scan left to right,
replacing each non-overlapping occurrence of `pat`.  The extra fuel
argument (always initialised to the string length, which is enough: each
step consumes at least one character) keeps the recursion structural; the
fuel-exhausted arm is unreachable. -/
def pyReplaceAux (pat rep : List Char) : ℕ → List Char → List Char
  | _, [] => []
  | 0, cs => cs
  | f + 1, c :: rest =>
    if pat ≠ [] ∧ pat.isPrefixOf (c :: rest) then
      rep ++ pyReplaceAux pat rep f (rest.drop (pat.length - 1))
    else
      c :: pyReplaceAux pat rep f rest

/-- See `pyReplaceAux`. -/
def pyReplace (pat rep cs : List Char) : List Char :=
  pyReplaceAux pat rep cs.length cs

/-- `gterm.py::alt_float` (Cyber APL numeric tokens): a leading `$` means
"negate the value of the text after the first three characters", and every
embedded `E$NG` means `e-`.  `floatstring[0]` raises `IndexError` on an
empty token (`.error`). -/
def alt_float (cs : List Char) : Except Unit ℚ :=
  match cs with
  | [] => .error ()
  | c :: _ =>
    if c = '$' then
      (pyFloat (pyReplace ['E', '$', 'N', 'G'] ['e', '-'] (cs.drop 3))).map Neg.neg
    else
      pyFloat (pyReplace ['E', '$', 'N', 'G'] ['e', '-'] cs)

/-- Python `str.split()` (no separator argument): split on runs of
whitespace, dropping empty pieces.  `acc` holds the current word reversed. -/
def pySplitAux : List Char → List Char → List (List Char)
  | [], acc => if acc = [] then [] else [acc.reverse]
  | c :: t, acc =>
    if c.isWhitespace then
      if acc = [] then pySplitAux t [] else acc.reverse :: pySplitAux t []
    else pySplitAux t (c :: acc)

/-- See `pySplitAux`. -/
def pySplit (cs : List Char) : List (List Char) := pySplitAux cs []

/-! ### The graphics command buffer and `addGraphics` -/

/-- A decoded graphics command: the typed form of the tuples `addGraphics`
appends to `self.gcb` (tag 1 = colour, 2 = fill, 3 = move, 4 = draw,
6 = width, 7 = bounds, 8 = graph bounds, 9 = text, 10 = font size,
11 = text align, 12 = font index, 13 = point, 14 = title, 15 = circle,
16 = square mode, 17 = relative move, 18 = relative draw).  The `(2,0)`
fill tuple's constant payload is not represented. -/
inductive GCmd where
  | colour (r g b : ℚ)
  | fill
  | move (x y : ℚ)
  | draw (x y : ℚ)
  | width (w : ℚ)
  | bounds (xlo ylo xhi yhi : ℚ)
  | gbounds (xlo ylo xhi yhi : ℚ)
  | text (s : String)
  | fontsize (v : ℚ)
  | textalign (v : ℚ)
  | fontindex (v : ℚ)
  | point (x y : ℚ)
  | title (s : String)
  | circle (x y r : ℚ)
  | setsquare (v : ℚ)
  | relmove (dx dy : ℚ)
  | reldraw (dx dy : ℚ)
deriving DecidableEq

/-- The decoder-side state of the terminal object: the graphics command
buffer `gcb` and its counter, the buffer lock, the
`suppress_next_newline_display` flag, the `gchanged` flag with a counter of
`trigger_doGrUpdate` calls, and counters for each text-screen action
performed by `screenAddString` (the claims only observe how often each
action runs). -/
structure GState where
  gcb : List GCmd := []
  gcbcmds : ℕ := 0
  lockHeld : Bool := false
  suppress : Bool := false
  gchanged : ℕ := 0
  triggers : ℕ := 0
  newlines : ℕ := 0
  returns : ℕ := 0
  bells : ℕ := 0
  backspaces : ℕ := 0
  tabs : ℕ := 0
  formfeeds : ℕ := 0
  chars : ℕ := 0
deriving DecidableEq

/-- The fresh decoder state of a new session. -/
def gs0 : GState := {}

/-- What one decoded command does to the buffer: Clear truncates it, most
commands append one record, Flush and unrecognised opcodes (and the
token-mode-only opcodes arriving in fixed-width mode) append nothing. -/
inductive DecOut where
  | clear
  | append (c : GCmd)
  | nothing (flush : Bool)

/-- `commandsplit[i]`, raising `IndexError` when out of range. -/
def tok (sp : List (List Char)) (i : ℕ) : Except Unit (List Char) :=
  match sp.get? i with
  | some t => .ok t
  | none => .error ()

/-- `float(commandsplit[i])`. -/
def tokF (sp : List (List Char)) (i : ℕ) : Except Unit ℚ :=
  tok sp i >>= pyFloat

/-- `self.alt_float(commandsplit[i])`. -/
def tokA (sp : List (List Char)) (i : ℕ) : Except Unit ℚ :=
  tok sp i >>= alt_float

/-- The decode dispatch of `addGraphics`: given the escape mode, the opcode
character code `command = commandlist[2]`, the raw payload and its
whitespace-split form, decide what happens to the buffer.  Faithful
branch-for-branch to the Python `if/elif` chain; opcodes 65–73 read
`commandsplit` without an `alt_escmode` guard, which in fixed-width mode is
a `NameError` in Python and an out-of-range `tok` here — an error either
way. -/
def decodeCmd (alt : Bool) (command : ℕ) (cl : List ℕ) (sp : List (List Char)) :
    Except Unit DecOut :=
  if command = 48 then .ok .clear
  else if command = 49 then
    if alt then do
      let r ← tokF sp 1
      let g ← tokF sp 2
      let b ← tokF sp 3
      return .append (.colour r g b)
    else do
      let r ← lfcol ((cl.drop 3).take 3)
      let g ← lfcol ((cl.drop 6).take 3)
      let b ← lfcol ((cl.drop 9).take 3)
      return .append (.colour r g b)
  else if command = 50 then .ok (.append .fill)
  else if command = 51 then
    if alt then do
      let x ← tokA sp 1
      let y ← tokA sp 2
      return .append (.move x y)
    else do
      let x ← lfpos ((cl.drop 3).take 4)
      let y ← lfpos ((cl.drop 7).take 4)
      return .append (.move x y)
  else if command = 52 then
    if alt then do
      let x ← tokA sp 1
      let y ← tokA sp 2
      return .append (.draw x y)
    else do
      let x ← lfpos ((cl.drop 3).take 4)
      let y ← lfpos ((cl.drop 7).take 4)
      return .append (.draw x y)
  else if command = 53 then .ok (.nothing true)
  else if command = 54 then
    if alt then do
      let w ← tokF sp 1
      return .append (.width w)
    else do
      let w ← lfwid ((cl.drop 3).take 3)
      return .append (.width w)
  else if command = 55 then
    if alt then do
      let xlo ← tokA sp 1
      let ylo ← tokA sp 2
      let xhi ← tokA sp 3
      let yhi ← tokA sp 4
      return .append (.bounds xlo ylo xhi yhi)
    else .ok (.nothing false)
  else if command = 56 then
    if alt then do
      let xlo ← tokA sp 1
      let ylo ← tokA sp 2
      let xhi ← tokA sp 3
      let yhi ← tokA sp 4
      return .append (.gbounds xlo ylo xhi yhi)
    else .ok (.nothing false)
  else if command = 57 ∨ command = 69 then
    if alt then
      let recovered := String.mk (((cl.drop 4).dropLast).map charOfCode)
      if command = 57 then .ok (.append (.text recovered))
      else .ok (.append (.title recovered))
    else .ok (.nothing false)
  else if command = 65 then do
    let v ← tokA sp 1
    return .append (.fontsize v)
  else if command = 66 then do
    let v ← tokA sp 1
    return .append (.textalign v)
  else if command = 67 then do
    let v ← tokA sp 1
    return .append (.fontindex v)
  else if command = 68 then do
    let x ← tokA sp 1
    let y ← tokA sp 2
    return .append (.point x y)
  else if command = 70 then do
    let x ← tokA sp 1
    let y ← tokA sp 2
    let r ← tokA sp 3
    return .append (.circle x y r)
  else if command = 71 then do
    let v ← tokA sp 1
    return .append (.setsquare v)
  else if command = 72 then do
    let x ← tokA sp 1
    let y ← tokA sp 2
    return .append (.relmove x y)
  else if command = 73 then do
    let x ← tokA sp 1
    let y ← tokA sp 2
    return .append (.reldraw x y)
  else .ok (.nothing false)

/-- Apply a decode outcome to the buffer state: Clear truncates and resets
the counter atomically and is a flush; an append also bumps the counter
(`if command != 48: self.gcbcmds += 1`); a decode exception leaves the
buffer untouched and carries the state to the handler. -/
def applyDecOut (st1 : GState) : Except Unit DecOut → Except GState (GState × Bool)
  | .error _ => .error st1
  | .ok .clear => .ok ({ st1 with gcb := [], gcbcmds := 0 }, true)
  | .ok (.append c) =>
    .ok ({ st1 with gcb := st1.gcb ++ [c], gcbcmds := st1.gcbcmds + 1 }, false)
  | .ok (.nothing fl) => .ok ({ st1 with gcbcmds := st1.gcbcmds + 1 }, fl)

/-- The body of `addGraphics`'s `try:` block, run with the lock already
held.  An `.error` result carries the state as mutated up to the raising
point (only the suppress-newline flag can have changed by then: every
buffer mutation happens after all fallible decoding in its branch;
`commandlist[2]` itself raises `IndexError` on a too-short payload). -/
def decodeBody (st : GState) (cl : List ℕ) : Except GState (GState × Bool) :=
  match cl.get? 2 with
  | none => .error st
  | some command =>
    applyDecOut
      (if cl.get? 0 == some 64 then { st with suppress := true } else st)
      (decodeCmd (cl.get? 0 == some 64) command cl
        (if cl.get? 0 == some 64 then pySplit (cl.map charOfCode) else []))

/-- `gterm.py::addGraphics`: acquire the buffer lock, decode one payload,
release the lock, and on a flush (or every 1000th command) mark the
graphics screen changed and trigger a redraw.  Any exception in the body is
caught: the handler prints and releases the lock. -/
def addGraphics (st : GState) (cl : List ℕ) : GState :=
  let stL := { st with lockHeld := true }
  match decodeBody stL cl with
  | .error stE => { stE with lockHeld := false }
  | .ok (st2, isaflush) =>
    let st3 := { st2 with lockHeld := false }
    if isaflush ∨ (st3.gcbcmds + 1) % 1000 = 0 then
      { st3 with gchanged := 2, triggers := st3.triggers + 1 }
    else st3

/-- One character of `gterm.py::screenAddString` (default `newlinechar=10`,
`retchar=13`), under the standing configuration of this terminal: no input
character map and no registered escape-sequence processors, so the final
branch just prints the character.  Each screen action is modelled by
bumping its counter; the newline branch consumes the
suppress-next-newline flag instead of printing a line break. -/
def screenAddChar (st : GState) (code : ℕ) : GState :=
  if code = 10 then
    if st.suppress then { st with suppress := false }
    else { st with newlines := st.newlines + 1 }
  else if code = 13 then { st with returns := st.returns + 1 }
  else if code = 7 then { st with bells := st.bells + 1 }
  else if code = 8 then { st with backspaces := st.backspaces + 1 }
  else if code = 9 then { st with tabs := st.tabs + 1 }
  else if code = 12 then { st with formfeeds := st.formfeeds + 1 }
  else { st with chars := st.chars + 1 }

/-- `gterm.py::screenAddString` over a list of character codes. -/
def screenAddString (st : GState) (codes : List ℕ) : GState :=
  codes.foldl screenAddChar st

/-! ### The replay interpreter `cairoRenderGraphics` -/

/-- One element of a Cairo path sub-path: a point added by
`move_to`/`line_to`, or a full-circle arc added by `arc`. -/
inductive PathSeg where
  | pt (x y : ℚ)
  | arcSeg (cx cy r : ℚ)
deriving DecidableEq

/-- The rendering device: the pixel extents passed to
`cairoRenderGraphics`, oracles for the font-dependent text extents returned
by `c.text_extents` (width and height), and the widget's character cell
metrics `self.charspace`/`self.linespace`. -/
structure Device where
  toX : ℚ
  toY : ℚ
  textW : String → ℚ
  textH : String → ℚ
  charspace : ℚ
  linespace : ℚ

/-- The `self` fields `cairoRenderGraphics` reads when it starts. -/
structure GSelf where
  xlo : ℚ := 0
  ylo : ℚ := 0
  xhi : ℚ := 1
  yhi : ℚ := 1
  make_square : Bool := false
  zoomed : Bool := false
  xlo_raw : ℚ := 0
  xhi_raw : ℚ := 0
  ylo_raw : ℚ := 0
  yhi_raw : ℚ := 0
  gxl : ℚ := 0
  gxh : ℚ := 0
  gyl : ℚ := 0
  gyh : ℚ := 0

/-- The replay state: the interpreter's local variables (`inaline`,
`pending_move`, `pmx`/`pmy`, the current position `gcp`, the coordinate
transform, the pen state) together with the `self` fields it can mutate and
a model of the Cairo context: the current path (a list of sub-paths), the
stroked sub-paths so far, a paint counter and the text draws (position
passed to the preceding `move_to`, or `none` when no `move_to` was issued,
plus the string). -/
structure RState where
  inaline : Bool
  pending_move : Bool
  pmx : ℚ
  pmy : ℚ
  gcpx : ℚ
  gcpy : ℚ
  x_offset : ℚ
  x_scale : ℚ
  y_offset : ℚ
  y_scale : ℚ
  width : ℚ
  colR : ℚ
  colG : ℚ
  colB : ℚ
  fontsize : ℤ
  fontindex : ℤ
  textalign : ℤ
  make_square : Bool
  zoomed : Bool
  xlo_raw : ℚ
  xhi_raw : ℚ
  ylo_raw : ℚ
  yhi_raw : ℚ
  gxl : ℚ
  gxh : ℚ
  gyl : ℚ
  gyh : ℚ
  path : List (List PathSeg)
  strokes : List (List PathSeg)
  paints : ℕ
  texts : List (Option (ℚ × ℚ) × String)
deriving DecidableEq

/-- `c.move_to`: begin a new sub-path at the given point. -/
def cmove (s : RState) (x y : ℚ) : RState :=
  { s with path := s.path ++ [[.pt x y]] }

/-- `c.line_to`: extend the current sub-path (like `move_to` when there is
no current point). -/
def cline (s : RState) (x y : ℚ) : RState :=
  match s.path.getLast? with
  | none => { s with path := [[.pt x y]] }
  | some sub => { s with path := s.path.dropLast ++ [sub ++ [.pt x y]] }

/-- `c.arc` over the full circle. -/
def carc (s : RState) (cx cy r : ℚ) : RState :=
  match s.path.getLast? with
  | none => { s with path := [[.arcSeg cx cy r]] }
  | some sub => { s with path := s.path.dropLast ++ [sub ++ [.arcSeg cx cy r]] }

/-- `c.stroke`: stroke every sub-path of the current path and clear it. -/
def cstroke (s : RState) : RState :=
  { s with strokes := s.strokes ++ s.path, path := [] }

/-- `c.show_text` after an optional `c.move_to` at `pos`. -/
def ctext (s : RState) (pos : Option (ℚ × ℚ)) (str : String) : RState :=
  { s with texts := s.texts ++ [(pos, str)] }

/-- The epsilon `1e-6` flooring scale denominators. -/
def eps : ℚ := 1 / 1000000

/-- Python `int()` on a float: truncation toward zero. -/
def pyTrunc (q : ℚ) : ℤ := if 0 ≤ q then ⌊q⌋ else ⌈q⌉

/-- Python float floor-division `x // y` with `y = 1` pre-applied:
`⌊q⌋` as a rational. -/
def floorQ (q : ℚ) : ℚ := (⌊q⌋ : ℚ)

/-- `l[i]` under Python semantics: `IndexError` out of range. -/
def exceptOfOption : Option α → Except Unit α
  | some a => .ok a
  | none => .error ()

/-- `l[-k]` (for `k ≥ 1`) under Python semantics. -/
def negIdx (l : List α) (k : ℕ) : Except Unit α :=
  if l.length < k then .error () else exceptOfOption (l.get? (l.length - k))

/-- The two opcodes the pre-command stroke guard exempts. -/
def isDrawLike : GCmd → Bool
  | .draw _ _ => true
  | .reldraw _ _ => true
  | _ => false

/-- Stroke the open polyline and mark it closed
(`c.stroke(); inaline = False`). -/
def closeLine (s : RState) : RState :=
  { cstroke s with inaline := false }

/-- Execute one replayed command, after the pre-command stroke guard. -/
def rexec (dev : Device) (s : RState) (cmd : GCmd) : Except Unit RState :=
  match cmd with
  | .colour r g b => .ok { s with colR := r, colG := g, colB := b }
  | .fill => .ok { s with paints := s.paints + 1 }
  | .move x y =>
    .ok { s with pending_move := true,
                 pmx := (x - s.x_offset) * s.x_scale,
                 pmy := (y - s.y_offset) * s.y_scale,
                 gcpx := x, gcpy := y }
  | .draw x y =>
    let s1 := if s.pending_move then
        { cmove s s.pmx (dev.toY - s.pmy) with pending_move := false, inaline := true }
      else s
    if s1.inaline then
      .ok { cline s1 ((x - s1.x_offset) * s1.x_scale)
              (dev.toY - (y - s1.y_offset) * s1.y_scale) with gcpx := x, gcpy := y }
    else .ok s1
  | .width w => .ok { s with width := w }
  | .bounds xlo ylo xhi yhi =>
    let xblo := if s.zoomed then xlo + s.xlo_raw * (xhi - xlo) else xlo
    let xbhi := if s.zoomed then xlo + s.xhi_raw * (xhi - xlo) else xhi
    let yblo := if s.zoomed then ylo + s.ylo_raw * (yhi - ylo) else ylo
    let ybhi := if s.zoomed then ylo + s.yhi_raw * (yhi - ylo) else yhi
    let ysc := dev.toY / max eps (ybhi - yblo)
    .ok { s with
          y_offset := if s.make_square then yblo else ylo,
          y_scale := ysc,
          x_offset := xblo,
          x_scale := if s.make_square then ysc else dev.toX / max eps (xbhi - xblo) }
  | .gbounds xlo ylo xhi yhi => do
    let xblo := if s.zoomed then s.gxl + s.xlo_raw * (s.gxh - s.gxl) else xlo
    let xbhi := if s.zoomed then s.gxl + s.xhi_raw * (s.gxh - s.gxl) else xhi
    let yblo := if s.zoomed then s.gyl + s.ylo_raw * (s.gyh - s.gyl) else ylo
    let ybhi := if s.zoomed then s.gyl + s.yhi_raw * (s.gyh - s.gyl) else yhi
    let tvx ← if s.make_square then
        let xmid := (xblo + xbhi) / 2
        let xdelta := (dev.toX / dev.toY * (ybhi - yblo)) / 2
        tick_values (xmid - xdelta) (xmid + xdelta) 15
      else tick_values xblo xbhi 15
    let tvy ← tick_values yblo ybhi 10
    let xlo2 ← exceptOfOption tvx.head?
    let xhi2 ← exceptOfOption tvx.getLast?
    let ylo2 ← exceptOfOption tvy.head?
    let yhi2 ← exceptOfOption tvy.getLast?
    let s := { s with gxl := if s.zoomed then s.gxl else xlo2,
                      gxh := if s.zoomed then s.gxh else xhi2,
                      gyl := if s.zoomed then s.gyl else ylo2,
                      gyh := if s.zoomed then s.gyh else yhi2 }
    let ysc := dev.toY / max eps (yhi2 - ylo2)
    let s := { s with y_offset := ylo2, y_scale := ysc, x_offset := xlo2,
                      x_scale := if s.make_square then ysc
                                 else dev.toX / max eps (xhi2 - xlo2) }
    let labx ← tick_labels tvx
    let laby ← tick_labels tvy
    let s := tvx.foldl (fun a xc =>
        cstroke (cline
          (cmove a ((xc - a.x_offset) * a.x_scale)
            (dev.toY - (ylo2 - a.y_offset) * a.y_scale))
          ((xc - a.x_offset) * a.x_scale)
          (dev.toY - (yhi2 - a.y_offset) * a.y_scale))) s
    let s := tvy.foldl (fun a yc =>
        cstroke (cline
          (cmove a ((xlo2 - a.x_offset) * a.x_scale)
            (dev.toY - (yc - a.y_offset) * a.y_scale))
          ((xhi2 - a.x_offset) * a.x_scale)
          (dev.toY - (yc - a.y_offset) * a.y_scale))) s
    let yct ← exceptOfOption (tvy.get? 1)
    let s := (tvx.zip labx.1).foldl (fun a p =>
        let xc := (p.1 - a.x_offset) * a.x_scale
        let px := xc + dev.charspace / 2
        let py := dev.toY - ((yct - a.y_offset) * a.y_scale - 7 / 10 * dev.linespace)
        ctext (cmove a px py) (some (px, py)) p.2) s
    let s ← if labx.2.length > 0 then do
        let xm2 ← negIdx tvx 2
        let yc2 ← exceptOfOption (tvy.get? 1)
        let px := (xm2 - s.x_offset) * s.x_scale + dev.charspace / 2
        let py := dev.toY - ((yc2 - s.y_offset) * s.y_scale - 11 / 5 * dev.linespace)
        pure (ctext (cmove s px py) (some (px, py)) labx.2)
      else pure s
    let xct ← exceptOfOption (tvx.get? 1)
    let s := (tvy.zip laby.1).foldl (fun a p =>
        let yc := (p.1 - a.y_offset) * a.y_scale
        let px := (xct - a.x_offset) * a.x_scale + dev.charspace / 2
        let py := dev.toY - (yc + dev.linespace / 5)
        ctext (cmove a px py) (some (px, py)) p.2) s
    let s ← if laby.2.length > 0 then do
        let ym2 ← negIdx tvy 2
        let xc2 ← exceptOfOption (tvx.get? 1)
        let px := (xc2 - s.x_offset) * s.x_scale + dev.charspace / 2
        let py := dev.toY - ((ym2 - s.y_offset) * s.y_scale + 17 / 10 * dev.linespace)
        pure (ctext (cmove s px py) (some (px, py)) laby.2)
      else pure s
    return s
  | .text str =>
    if s.textalign = 0 then
      let px := s.pmx
      let py := dev.toY - s.pmy
      .ok (ctext (cmove s px py) (some (px, py)) str)
    else
      let tw := dev.textW str
      if s.textalign = 1 then
        let px := s.pmx - floorQ (tw / 2)
        let py := dev.toY - s.pmy
        .ok (ctext (cmove s px py) (some (px, py)) str)
      else if s.textalign = 2 then
        let px := s.pmx - tw
        let py := dev.toY - s.pmy
        .ok (ctext (cmove s px py) (some (px, py)) str)
      else if s.textalign = 3 then
        let px := floorQ ((dev.toX - tw) / 2)
        let py := dev.toY - s.pmy
        .ok (ctext (cmove s px py) (some (px, py)) str)
      else .ok (ctext s none str)
  | .fontsize v => .ok { s with fontsize := pyTrunc v }
  | .textalign v => .ok { s with textalign := pyTrunc v }
  | .fontindex v => .ok { s with fontindex := max 0 (min 2 (pyTrunc v)) }
  | .point x y =>
    let px := (x - s.x_offset) * s.x_scale
    let py := (y - s.y_offset) * s.y_scale
    let delta : ℚ := ((pyTrunc (5 / 1000 * dev.toX) + 1 : ℤ) : ℚ)
    let s1 := cline (cmove s (px - delta) (dev.toY - py)) (px + delta) (dev.toY - py)
    let s2 := cline (cmove s1 px (dev.toY - py - delta)) px (dev.toY - py + delta)
    .ok { cstroke s2 with pmx := px, pmy := py, gcpx := x, gcpy := y }
  | .title str =>
    let tw := dev.textW str
    let th := dev.textH str
    let px := floorQ ((dev.toX - tw) / 2)
    let py := 5 / 2 * th
    .ok (ctext (cmove s px py) (some (px, py)) str)
  | .circle x y r =>
    let px := (x - s.x_offset) * s.x_scale
    let py := (y - s.y_offset) * s.y_scale
    let prd := r * s.x_scale
    .ok { cstroke (carc s px py prd) with pmx := px, pmy := py, gcpx := x, gcpy := y }
  | .setsquare v => .ok { s with make_square := decide (0 < v) }
  | .relmove dx dy =>
    let gx := s.gcpx + dx
    let gy := s.gcpy + dy
    .ok { s with pending_move := true, gcpx := gx, gcpy := gy,
                 pmx := (gx - s.x_offset) * s.x_scale,
                 pmy := (gy - s.y_offset) * s.y_scale }
  | .reldraw dx dy =>
    let s1 := if s.pending_move then
        { cmove s s.pmx (dev.toY - s.pmy) with pending_move := false, inaline := true }
      else s
    if s1.inaline then
      let gx := s1.gcpx + dx
      let gy := s1.gcpy + dy
      .ok { cline s1 ((gx - s1.x_offset) * s1.x_scale)
              (dev.toY - (gy - s1.y_offset) * s1.y_scale) with gcpx := gx, gcpy := gy }
    else .ok s1

/-- One iteration of the replay loop: any command other than Draw and
RelativeDraw first strokes an open polyline, then the command executes. -/
def rstep (dev : Device) (s : RState) (cmd : GCmd) : Except Unit RState :=
  rexec dev (if ¬ isDrawLike cmd ∧ s.inaline then closeLine s else s) cmd

/-- `gterm.py::cairoRenderGraphics`: set up the initial transform and pen
state (including the initial paint to black), replay every buffered
command in order, and stroke any still-open polyline at the end.  An
uncaught exception (there is no handler in the loop) aborts the remaining
commands: `foldlM` over `Except` stops at the first `.error`. -/
def rinit (dev : Device) (sf : GSelf) : RState :=
  let ysc := dev.toY / max eps (sf.yhi - sf.ylo)
  { inaline := false, pending_move := false, pmx := 0, pmy := 0,
    gcpx := 0, gcpy := 0,
    x_offset := sf.xlo,
    x_scale := if sf.make_square then ysc else dev.toX / max eps (sf.xhi - sf.xlo),
    y_offset := sf.ylo, y_scale := ysc,
    width := 1, colR := 1, colG := 1, colB := 1,
    fontsize := 14, fontindex := 0, textalign := 0,
    make_square := sf.make_square, zoomed := sf.zoomed,
    xlo_raw := sf.xlo_raw, xhi_raw := sf.xhi_raw,
    ylo_raw := sf.ylo_raw, yhi_raw := sf.yhi_raw,
    gxl := sf.gxl, gxh := sf.gxh, gyl := sf.gyl, gyh := sf.gyh,
    path := [], strokes := [], paints := 1, texts := [] }

/-- See `rinit`: the whole of `cairoRenderGraphics`. -/
def render (dev : Device) (sf : GSelf) (cmds : List GCmd) : Except Unit RState :=
  (cmds.foldlM (rstep dev) (rinit dev sf)).map
    (fun s => if s.inaline then cstroke s else s)

/-- A 200×100-pixel device with arbitrary concrete text metrics. -/
def dev0 : Device :=
  { toX := 200, toY := 100, textW := fun _ => 0, textH := fun _ => 0,
    charspace := 10, linespace := 17 }

/-- The `self` fields at session start (`self.xlo = 0.0` … `self.yhi = 1.0`,
no square mode, no zoom). -/
def sf0 : GSelf := {}

/-! ### Helper lemmas about the decoder -/

lemma decodeBody_error_eq {st e : GState} {cl : List ℕ}
    (h : decodeBody st cl = .error e) :
    e.gcb = st.gcb ∧ e.gcbcmds = st.gcbcmds ∧ e.lockHeld = st.lockHeld := by
  unfold decodeBody at h
  split at h
  · injection h with h
    subst h
    exact ⟨rfl, rfl, rfl⟩
  · unfold applyDecOut at h
    split at h
    · injection h with h
      subst h
      split <;> exact ⟨rfl, rfl, rfl⟩
    · exact absurd h (by simp)
    · exact absurd h (by simp)
    · exact absurd h (by simp)

lemma decodeBody_ok_eq {st st2 : GState} {fl : Bool} {cl : List ℕ}
    (h : decodeBody st cl = .ok (st2, fl)) :
    (st2.gcb = [] ∧ st2.gcbcmds = 0) ∨
    (∃ c, st2.gcb = st.gcb ++ [c] ∧ st2.gcbcmds = st.gcbcmds + 1) ∨
    (st2.gcb = st.gcb ∧ st2.gcbcmds = st.gcbcmds + 1) := by
  unfold decodeBody at h
  split at h
  · exact absurd h (by simp)
  · unfold applyDecOut at h
    split at h
    · exact absurd h (by simp)
    · injection h with h
      injection h with h1 h2
      subst h1
      exact Or.inl ⟨rfl, rfl⟩
    · rename_i c heqc
      injection h with h
      injection h with h1 h2
      subst h1
      refine Or.inr (Or.inl ⟨c, ?_, ?_⟩) <;> split <;> rfl
    · injection h with h
      injection h with h1 h2
      subst h1
      refine Or.inr (Or.inr ⟨?_, ?_⟩) <;> split <;> rfl

lemma decodeBody_ok_suppress {st st2 : GState} {fl : Bool} {cl : List ℕ}
    (halt : cl.get? 0 = some 64) (h : decodeBody st cl = .ok (st2, fl)) :
    st2.suppress = true := by
  unfold decodeBody at h
  split at h
  · exact absurd h (by simp)
  · rw [show (cl.get? 0 == some 64) = true by simpa using halt] at h
    unfold applyDecOut at h
    split at h
    · exact absurd h (by simp)
    all_goals
      injection h with h
      injection h with h1 h2
      subst h1
      rfl

lemma decodeBody_clear {st : GState} {cl : List ℕ} (h : cl.get? 2 = some 48) :
    decodeBody st cl =
      .ok ({ (if cl.get? 0 == some 64 then { st with suppress := true } else st) with
             gcb := [], gcbcmds := 0 }, true) := by
  unfold decodeBody
  rw [h]
  simp [decodeCmd, applyDecOut]

lemma addGraphics_of_error {st e : GState} {cl : List ℕ}
    (h : decodeBody { st with lockHeld := true } cl = .error e) :
    addGraphics st cl = { e with lockHeld := false } := by
  simp only [addGraphics, h]

lemma addGraphics_fields_of_ok {st st2 : GState} {fl : Bool} {cl : List ℕ}
    (h : decodeBody { st with lockHeld := true } cl = .ok (st2, fl)) :
    (addGraphics st cl).gcb = st2.gcb ∧ (addGraphics st cl).gcbcmds = st2.gcbcmds ∧
    (addGraphics st cl).lockHeld = false ∧ (addGraphics st cl).suppress = st2.suppress ∧
    (addGraphics st cl).newlines = st2.newlines := by
  simp only [addGraphics, h]
  refine ⟨?_, ?_, ?_, ?_, ?_⟩ <;> split <;> rfl


lemma screenAddString_newlines_run : ∀ (k : ℕ) (st : GState), st.suppress = false →
    screenAddString st (List.replicate k 10) = { st with newlines := st.newlines + k } := by
  intro k
  induction k with
  | zero => intro st _; simp [screenAddString, List.replicate]
  | succ n ih =>
    intro st h
    rw [List.replicate_succ]
    show screenAddString (screenAddChar st 10) (List.replicate n 10) = _
    rw [show screenAddChar st 10 = { st with newlines := st.newlines + 1 } by
          simp [screenAddChar, h]]
    rw [ih { st with newlines := st.newlines + 1 } h]
    simp [add_assoc]
    omega

/-! ### The claims about the decode path -/

/-- C1: when single-command decode of a graphics escape payload fails, the
exception is caught inside `addGraphics` (the model is a total function),
the buffer lock is released, and the command buffer — and its counter — are
exactly what they were before the attempted append, so the session
continues. -/
theorem C1_decode_failure_contained (st : GState) (cl : List ℕ) (e : GState)
    (h : decodeBody { st with lockHeld := true } cl = .error e) :
    (addGraphics st cl).gcb = st.gcb ∧
    (addGraphics st cl).gcb.length = st.gcb.length ∧
    (addGraphics st cl).lockHeld = false ∧
    (addGraphics st cl).gcbcmds = st.gcbcmds := by
  have hc := decodeBody_error_eq h
  rw [addGraphics_of_error h]
  exact ⟨hc.1, by rw [hc.1], rfl, hc.2.1⟩

/-- Witness for C1 at the fixed-width colour payload whose first numeric
field holds the non-digits `ABC`. -/
theorem C1_witness :
    decodeBody { gs0 with lockHeld := true } [27, 71, 49, 65, 66, 67] =
      .error { gs0 with lockHeld := true } ∧
    ((addGraphics gs0 [27, 71, 49, 65, 66, 67]).gcb = gs0.gcb ∧
     (addGraphics gs0 [27, 71, 49, 65, 66, 67]).gcb.length = gs0.gcb.length ∧
     (addGraphics gs0 [27, 71, 49, 65, 66, 67]).lockHeld = false ∧
     (addGraphics gs0 [27, 71, 49, 65, 66, 67]).gcbcmds = gs0.gcbcmds) :=
  ⟨by decide, C1_decode_failure_contained gs0 [27, 71, 49, 65, 66, 67]
      { gs0 with lockHeld := true } (by decide)⟩

/-- C2 counterexample: decoding a Flush payload (opcode `5`, not a Clear)
bumps the command count to 1 while the buffered sequence stays empty, so
the count does not equal the sequence length. -/
theorem C2_counterexample :
    (addGraphics gs0 [27, 71, 53]).gcb.length = 0 ∧
    (addGraphics gs0 [27, 71, 53]).gcbcmds = 1 ∧
    (addGraphics gs0 [27, 71, 53]).gcbcmds ≠ (addGraphics gs0 [27, 71, 53]).gcb.length := by
  decide

/-- C2 as amended: the count dominates the buffer length (every decoded
non-Clear command bumps the count, and only some of them append), and a
decoded Clear atomically truncates the sequence and resets the count to
zero. -/
theorem C2_count_dominates_length (st : GState) (cl : List ℕ)
    (h : st.gcb.length ≤ st.gcbcmds) :
    (addGraphics st cl).gcb.length ≤ (addGraphics st cl).gcbcmds ∧
    (cl.get? 2 = some 48 →
      (addGraphics st cl).gcb = [] ∧ (addGraphics st cl).gcbcmds = 0) := by
  constructor
  · cases hd : decodeBody { st with lockHeld := true } cl with
    | error e =>
      have hc := decodeBody_error_eq hd
      rw [addGraphics_of_error hd]
      show e.gcb.length ≤ e.gcbcmds
      rw [hc.1, hc.2.1]
      exact h
    | ok p =>
      obtain ⟨st2, fl⟩ := p
      obtain ⟨h1, h2, -, -, -⟩ := addGraphics_fields_of_ok hd
      rw [h1, h2]
      rcases decodeBody_ok_eq hd with ⟨ha, hb⟩ | ⟨c, ha, hb⟩ | ⟨ha, hb⟩ <;>
        rw [ha, hb] <;> simp <;> omega
  · intro h48
    have hd := @decodeBody_clear { st with lockHeld := true } cl h48
    obtain ⟨h1, h2, -, -, -⟩ := addGraphics_fields_of_ok hd
    rw [h1, h2]
    exact ⟨rfl, rfl⟩

/-- Witness for C2 at the empty start state and a Clear payload. -/
theorem C2_witness :
    gs0.gcb.length ≤ gs0.gcbcmds ∧
    ((addGraphics gs0 [27, 0, 48]).gcb.length ≤ (addGraphics gs0 [27, 0, 48]).gcbcmds ∧
     ([27, 0, 48].get? 2 = some 48 →
       (addGraphics gs0 [27, 0, 48]).gcb = [] ∧ (addGraphics gs0 [27, 0, 48]).gcbcmds = 0)) :=
  ⟨by decide, C2_count_dominates_length gs0 [27, 0, 48] (by decide)⟩

/-- C9: whatever payloads have been decoded into the buffer, decoding a
Clear payload leaves a buffer of length 0 and a command count of 0. -/
theorem C9_clear_resets (payloads : List (List ℕ)) (cl : List ℕ)
    (h : cl.get? 2 = some 48) :
    (addGraphics (payloads.foldl addGraphics gs0) cl).gcb.length = 0 ∧
    (addGraphics (payloads.foldl addGraphics gs0) cl).gcbcmds = 0 := by
  have hd := @decodeBody_clear { payloads.foldl addGraphics gs0 with lockHeld := true } cl h
  obtain ⟨h1, h2, -, -, -⟩ := addGraphics_fields_of_ok hd
  rw [h1, h2]
  exact ⟨rfl, rfl⟩

/-- Witness for C9: a Flush and a Fill payload, then a Clear. -/
theorem C9_witness :
    [27, 0, 48].get? 2 = some 48 ∧
    ((addGraphics ([[27, 71, 53], [27, 71, 50]].foldl addGraphics gs0) [27, 0, 48]).gcb.length = 0 ∧
     (addGraphics ([[27, 71, 53], [27, 71, 50]].foldl addGraphics gs0) [27, 0, 48]).gcbcmds = 0) :=
  ⟨by decide, C9_clear_resets [[27, 71, 53], [27, 71, 50]] [27, 0, 48] (by decide)⟩

/-- C10: a token-mode (`@`-introduced) payload whose decode succeeds leaves
the suppress-next-newline flag set; the next newline fed to the text screen
is swallowed (it clears the flag instead of producing a line break) and
every following newline produces a line break as usual. -/
theorem C10_suppress_next_newline (st : GState) (cl : List ℕ)
    (st2 : GState) (fl : Bool) (k : ℕ)
    (halt : cl.get? 0 = some 64)
    (h : decodeBody { st with lockHeld := true } cl = .ok (st2, fl)) :
    (addGraphics st cl).suppress = true ∧
    (screenAddString (addGraphics st cl) (10 :: List.replicate k 10)).newlines =
      (addGraphics st cl).newlines + k ∧
    (screenAddString (addGraphics st cl) (10 :: List.replicate k 10)).suppress = false := by
  obtain ⟨-, -, -, hs, -⟩ := addGraphics_fields_of_ok h
  have hsup : (addGraphics st cl).suppress = true := by
    rw [hs]
    exact decodeBody_ok_suppress halt h
  have hstep : screenAddString (addGraphics st cl) (10 :: List.replicate k 10) =
      { (addGraphics st cl) with
        suppress := false,
        newlines := (addGraphics st cl).newlines + k } := by
    show screenAddString (screenAddChar (addGraphics st cl) 10) (List.replicate k 10) = _
    rw [show screenAddChar (addGraphics st cl) 10 =
          { (addGraphics st cl) with suppress := false } by simp [screenAddChar, hsup]]
    rw [screenAddString_newlines_run k _ rfl]
  exact ⟨hsup, by rw [hstep], by rw [hstep]⟩

/-- Witness for C10: the token-mode Flush payload `@[5`, followed by three
newlines. -/
theorem C10_witness :
    [64, 91, 53].get? 0 = some 64 ∧
    decodeBody { gs0 with lockHeld := true } [64, 91, 53] =
      .ok ({ gs0 with lockHeld := true, suppress := true, gcbcmds := 1 }, true) ∧
    ((addGraphics gs0 [64, 91, 53]).suppress = true ∧
     (screenAddString (addGraphics gs0 [64, 91, 53]) (10 :: List.replicate 2 10)).newlines =
       (addGraphics gs0 [64, 91, 53]).newlines + 2 ∧
     (screenAddString (addGraphics gs0 [64, 91, 53]) (10 :: List.replicate 2 10)).suppress = false) :=
  ⟨by decide, by decide,
   C10_suppress_next_newline gs0 [64, 91, 53]
     { gs0 with lockHeld := true, suppress := true, gcbcmds := 1 } true 2
     (by decide) (by decide)⟩

/-! ### The claims about the replay interpreter -/

/-- The replayed commands that neither stroke geometry of their own nor
leave a dangling sub-path on the Cairo path (everything except Draw and
RelativeDraw, the text-drawing commands Text and Title, and the
self-stroking GraphBounds, DrawPoint and DrawCircle). -/
def benign : GCmd → Bool
  | .colour _ _ _ => true
  | .fill => true
  | .move _ _ => true
  | .width _ => true
  | .bounds _ _ _ _ => true
  | .fontsize _ => true
  | .textalign _ => true
  | .fontindex _ => true
  | .setsquare _ => true
  | .relmove _ _ => true
  | _ => false

/-- C3 as amended: (i) every replayed command other than Draw/RelativeDraw
strokes (closes) an open polyline before it executes; (ii) Move(0.1,0.1),
Draw(0.9,0.7) followed by any benign non-Draw command yields exactly one
stroked polyline with exactly two points; (iii) when a further Move–Draw
pair follows such a command, the new Draw produces a second, separate
two-point polyline (the original claim's "any further Draw starts a new
polyline" is refuted by `C3_counterexample`: without an intervening Move
the Draw is dropped). -/
theorem C3_stroke_on_non_draw :
    (∀ (dev : Device) (s : RState) (c : GCmd),
        isDrawLike c = false → s.inaline = true →
        rstep dev s c = rexec dev (closeLine s) c) ∧
    (∀ (dev : Device) (sf : GSelf) (c : GCmd), benign c = true →
        (render dev sf [.move (1/10) (1/10), .draw (9/10) (7/10), c]).map
          (fun s => s.strokes.map List.length) = .ok [2]) ∧
    (∀ (dev : Device) (sf : GSelf) (c : GCmd) (a b x y : ℚ), benign c = true →
        (render dev sf [.move (1/10) (1/10), .draw (9/10) (7/10), c,
                        .move a b, .draw x y]).map
          (fun s => s.strokes.map List.length) = .ok [2, 2]) := by
  refine ⟨?_, ?_, ?_⟩
  · intro dev s c h1 h2
    simp [rstep, h1, h2]
  · intro dev sf c hc
    cases c <;> simp only [benign] at hc <;> first
    | exact Bool.noConfusion hc
    | simp [render, rstep, rexec, rinit, isDrawLike, closeLine, cmove, cline, cstroke, ctext,
            Except.map, List.foldlM_cons, List.foldlM_nil, bind, Except.bind, pure, Except.pure]
  · intro dev sf c a b x y hc
    cases c <;> simp only [benign] at hc <;> first
    | exact Bool.noConfusion hc
    | simp [render, rstep, rexec, rinit, isDrawLike, closeLine, cmove, cline, cstroke, ctext,
            Except.map, List.foldlM_cons, List.foldlM_nil, bind, Except.bind, pure, Except.pure]

/-- A replay state with an open polyline, for the witness below. -/
def rsW : RState := { rinit dev0 sf0 with inaline := true }

/-- Witness for C3 with the non-Draw command SetColour. -/
theorem C3_witness :
    isDrawLike (GCmd.colour 0 0 0) = false ∧ rsW.inaline = true ∧
    rstep dev0 rsW (GCmd.colour 0 0 0) = rexec dev0 (closeLine rsW) (GCmd.colour 0 0 0) ∧
    benign (GCmd.colour 0 0 0) = true ∧
    (render dev0 sf0 [.move (1/10) (1/10), .draw (9/10) (7/10), .colour 0 0 0]).map
      (fun s => s.strokes.map List.length) = .ok [2] ∧
    (render dev0 sf0 [.move (1/10) (1/10), .draw (9/10) (7/10), .colour 0 0 0,
                      .move (1/5) (1/5), .draw (3/5) (3/5)]).map
      (fun s => s.strokes.map List.length) = .ok [2, 2] :=
  ⟨rfl, rfl, C3_stroke_on_non_draw.1 dev0 rsW (GCmd.colour 0 0 0) rfl rfl, rfl,
   C3_stroke_on_non_draw.2.1 dev0 sf0 (GCmd.colour 0 0 0) rfl,
   C3_stroke_on_non_draw.2.2 dev0 sf0 (GCmd.colour 0 0 0) (1/5) (1/5) (3/5) (3/5) rfl⟩

/-- C3 counterexample: after Move(0.1,0.1), Draw(0.9,0.7) and a SetColour
command, a further Draw with no intervening Move is dropped — replay
produces exactly one stroked polyline, not the new separate polyline the
claim promises for "a further Draw command issued after that non-Draw
command". -/
theorem C3_counterexample :
    (render dev0 sf0 [.move (1/10) (1/10), .draw (9/10) (7/10), .colour 0 0 0,
                      .draw (1/2) (1/2)]).map
      (fun s => s.strokes.map List.length) = .ok [2] ∧
    (render dev0 sf0 [.move (1/10) (1/10), .draw (9/10) (7/10), .colour 0 0 0,
                      .draw (1/2) (1/2)]).map
      (fun s => s.strokes.map List.length) ≠ .ok [2, 2] := by
  have h : (render dev0 sf0 [.move (1/10) (1/10), .draw (9/10) (7/10), .colour 0 0 0,
                      .draw (1/2) (1/2)]).map
      (fun s => s.strokes.map List.length) = .ok [2] := by
    simp [render, rstep, rexec, rinit, isDrawLike, closeLine, cmove, cline, cstroke, dev0, sf0,
          Except.map, List.foldlM_cons, List.foldlM_nil, bind, Except.bind, pure, Except.pure]
  exact ⟨h, by rw [h]; decide⟩

/-- C4: the scale recomputation of a replayed SetBounds command, on a
200×100 device: equal spans-per-pixel on both axes in square mode (driven
by the y-span), independent per-axis scales otherwise, each denominator
floored at `1e-6`.  SetBounds(0,0,10,5) gives 20/20 in both modes;
SetBounds(0,0,10,20) gives 5/5 in square mode and 20/5 otherwise. -/
theorem C4_bounds_scales :
    ((render dev0 { sf0 with make_square := true } [.bounds 0 0 10 5]).map
        (fun s => (s.x_scale, s.y_scale)) = .ok (20, 20)) ∧
    ((render dev0 sf0 [.bounds 0 0 10 5]).map
        (fun s => (s.x_scale, s.y_scale)) = .ok (20, 20)) ∧
    ((render dev0 { sf0 with make_square := true } [.bounds 0 0 10 20]).map
        (fun s => (s.x_scale, s.y_scale)) = .ok (5, 5)) ∧
    ((render dev0 sf0 [.bounds 0 0 10 20]).map
        (fun s => (s.x_scale, s.y_scale)) = .ok (20, 5)) ∧
    (∀ xlo ylo xhi yhi : ℚ,
      (render dev0 { sf0 with make_square := true } [.bounds xlo ylo xhi yhi]).map
          (fun s => (s.x_scale, s.y_scale)) =
        .ok (100 / max eps (yhi - ylo), 100 / max eps (yhi - ylo)) ∧
      (render dev0 sf0 [.bounds xlo ylo xhi yhi]).map
          (fun s => (s.x_scale, s.y_scale)) =
        .ok (200 / max eps (xhi - xlo), 100 / max eps (yhi - ylo))) := by
  refine ⟨?_, ?_, ?_, ?_, fun xlo ylo xhi yhi => ⟨?_, ?_⟩⟩ <;>
  · simp [render, rstep, rexec, rinit, isDrawLike, closeLine, dev0, sf0, eps,
          Except.map, List.foldlM_cons, List.foldlM_nil, bind, Except.bind, pure, Except.pure]
    try norm_num

/-- C8 counterexample: replaying a GraphBounds command whose x-range is
degenerate (tick generation returns an empty list which the code then
indexes) raises, and the error aborts the remaining buffer — the following
Fill command, which on its own replays fine (its paint would be the second
one after the initial clear-to-black), is never executed. -/
theorem C8_counterexample :
    render dev0 sf0 [.gbounds 0 0 0 5, .fill] = .error () ∧
    (render dev0 sf0 [.fill]).map (fun s => s.paints) = .ok 2 := by
  constructor
  · simp [render, rstep, rexec, rinit, isDrawLike, closeLine, dev0, sf0, eps, exceptOfOption,
          tick_values, tick_step, flog10, natLog10, natLog10Aux,
          Except.map, List.foldlM_cons, List.foldlM_nil, bind, Except.bind, pure, Except.pure]
    norm_num [tick_step, flog10, natLog10, natLog10Aux, exceptOfOption]
  · simp [render, rstep, rexec, rinit, isDrawLike, closeLine, dev0, sf0,
          Except.map, List.foldlM_cons, List.foldlM_nil, bind, Except.bind, pure, Except.pure]

/-- C8 as amended: the replay loop has no per-command error handling.  The
claim's own example — a Text command with no preceding Move — raises no
error at all: the text is drawn at the initial pen position (0,0 in user
space, i.e. device point (0,100) on a 100-pixel-high device) and replay
continues with the next command; but a command whose replay does raise
(GraphBounds with a degenerate x-span) aborts the rest of the buffer. -/
theorem C8_no_replay_recovery :
    (render dev0 sf0 [.text "T", .fill]).map (fun s => (s.texts, s.paints)) =
      .ok ([(some (0, 100), "T")], 2) ∧
    render dev0 sf0 [.gbounds 0 0 0 5, .fill] = .error () := by
  constructor
  · simp [render, rstep, rexec, rinit, isDrawLike, closeLine, cmove, ctext, dev0, sf0,
          Except.map, List.foldlM_cons, List.foldlM_nil, bind, Except.bind, pure, Except.pure]
  · simp [render, rstep, rexec, rinit, isDrawLike, closeLine, dev0, sf0, eps, exceptOfOption,
          tick_values, tick_step, flog10, natLog10, natLog10Aux,
          Except.map, List.foldlM_cons, List.foldlM_nil, bind, Except.bind, pure, Except.pure]
    norm_num [tick_step, flog10, natLog10, natLog10Aux, exceptOfOption]

/-! ### The claims about tick labelling and numeric tokens -/

/-- C5 counterexample: `trail_0_suppress` removes a single trailing zero and
never the decimal point, so the value 5.0 labels as `"5.0"`, not `"5"`:
`tick_labels` on `[5.0, 5.25, 5.2]` returns `(["5.0","5.25","5.2"], "")`,
not the claimed `(["5","5.25","5.2"], "")`. -/
lemma format2f_five : format2f (5:ℚ) = "5.00" := by
  norm_num [format2f, roundHalfEven, Int.fract, abs_of_nonneg]
  decide

lemma format2f_five25 : format2f (21/4:ℚ) = "5.25" := by
  norm_num [format2f, roundHalfEven, Int.fract, abs_of_nonneg]
  decide

lemma format2f_five20 : format2f (26/5:ℚ) = "5.20" := by
  norm_num [format2f, roundHalfEven, Int.fract, abs_of_nonneg]
  decide

lemma tick_labels_eval :
    tick_labels [5, 21/4, 26/5] = .ok (["5.0", "5.25", "5.2"], "") := by
  have hmax : max (5:ℚ) (26/5:ℚ) = 26/5 := max_eq_right (by norm_num)
  have hflog : flog10 (26/5) = 0 := by norm_num [flog10, natLog10, natLog10Aux]
  norm_num [tick_labels, abs_of_nonneg, hmax, hflog,
            format2f_five, format2f_five25, format2f_five20]
  decide

theorem C5_counterexample :
    tick_labels [5, 21/4, 26/5] = .ok (["5.0", "5.25", "5.2"], "") ∧
    tick_labels [5, 21/4, 26/5] ≠ .ok (["5", "5.25", "5.2"], "") := by
  refine ⟨tick_labels_eval, by rw [tick_labels_eval]; simp⟩

/-- C5 as amended: two-decimal formatting with single-trailing-zero
suppression maps 5.0 to `"5.0"` (one zero dropped, the dot kept), 5.25 to
`"5.25"`, and 5.20 to `"5.2"`, with an empty scale suffix. -/
theorem C5_labels_amended :
    tick_labels [5, 21/4, 26/5] = .ok (["5.0", "5.25", "5.2"], "") ∧
    trail_0_suppress (format2f 5) = "5.0" ∧
    trail_0_suppress (format2f (21/4)) = "5.25" ∧
    trail_0_suppress (format2f (26/5)) = "5.2" := by
  refine ⟨tick_labels_eval, ?_, ?_, ?_⟩ <;>
    simp only [format2f_five, format2f_five25, format2f_five20] <;> decide

lemma pyReplaceAux_of_not_mem :
    ∀ (n : ℕ) (cs : List Char), '$' ∉ cs →
      pyReplaceAux ['E', '$', 'N', 'G'] ['e', '-'] n cs = cs := by
  intro n
  induction n with
  | zero =>
    intro cs _
    match cs with
    | [] => rfl
    | c :: rest => rfl
  | succ n ih =>
    intro cs h
    match cs with
    | [] => rfl
    | c :: rest =>
      show (if _ ∧ _ then _ else c :: pyReplaceAux _ _ n rest) = _
      rw [if_neg, ih rest (fun hm => h (List.mem_cons_of_mem c hm))]
      rintro ⟨-, hpre⟩
      match rest with
      | [] => simp [List.isPrefixOf] at hpre
      | d :: t =>
        simp [List.isPrefixOf] at hpre
        exact h (by simp only [List.mem_cons]; exact Or.inr (Or.inl hpre.2.1))

lemma pyReplace_of_not_mem (cs : List Char) (h : '$' ∉ cs) :
    pyReplace ['E', '$', 'N', 'G'] ['e', '-'] cs = cs :=
  pyReplaceAux_of_not_mem cs.length cs h

lemma alt_float_of_no_dollar (cs : List Char) (h : '$' ∉ cs) :
    alt_float cs = pyFloat cs := by
  have hrep := pyReplace_of_not_mem cs h
  match cs with
  | [] =>
    simp [alt_float, pyFloat, stripWS, parseMantExp]
  | c :: t =>
    have hc : ¬ c = '$' := fun e => h (by simp [e])
    simp only [alt_float, if_neg hc, hrep]

/-- C7: the token-mode numeric decode convention of `alt_float`.  A token
beginning with the `$` sentinel (as produced in the `$NG` spelling) decodes
to the negation of the remaining characters' value; an embedded `E$NG`
decodes as `e-`, so `123E$NG10` is 123e-10; the leading negative marker is
stripped before the embedded-exponent substitution, so `$NG123E$NG10` is
-123e-10; and a token containing no `$` marker parses as a plain signed
float. -/
theorem C7_alt_float_convention :
    (∀ rest : List Char, rest.head? ≠ some '$' →
        alt_float ('$' :: 'N' :: 'G' :: rest) = (alt_float rest).map Neg.neg) ∧
    alt_float "123E$NG10".data = .ok (123 / 10 ^ 10) ∧
    alt_float "$NG123E$NG10".data = .ok (-(123 / 10 ^ 10)) ∧
    (∀ cs : List Char, '$' ∉ cs → alt_float cs = pyFloat cs) := by
  refine ⟨?_, ?_, ?_, fun cs h => alt_float_of_no_dollar cs h⟩
  · intro rest h
    match rest with
    | [] =>
      simp +decide [alt_float, pyReplace, pyReplaceAux, pyFloat, stripWS, parseMantExp,
                    Except.map]
    | c :: t =>
      have hc : ¬ c = '$' := fun e => h (by rw [e]; rfl)
      simp only [alt_float, if_neg hc, if_pos rfl, if_true, eq_self_iff_true,
                 List.drop_succ_cons, List.drop_zero]
  · simp +decide [alt_float, pyReplace, pyReplaceAux, pyFloat, parseMantExp, parseUExp,
                  stripWS, digitsVal, Except.map]
    norm_num
  · simp +decide [alt_float, pyReplace, pyReplaceAux, pyFloat, parseMantExp, parseUExp,
                  stripWS, digitsVal, Except.map]
    norm_num

/-- What C6 asserts of `tick_values` at one input triple: an empty list
when the endpoints are within `1e-9`, and otherwise an ascending list of
multiples of the computed step whose first element is the largest
step-multiple not above the lower endpoint and whose last element — the one
extra padding tick — is `⌈max/step⌉·step`, at least the upper endpoint. -/
def TickSpec (data_min data_max max_ticks : ℚ) : Prop :=
  (|data_min - data_max| < 1 / 1000000000 →
    tick_values data_min data_max max_ticks = .ok []) ∧
  (1 / 1000000000 ≤ |data_min - data_max| →
    ∃ step l,
      tick_step (max data_min data_max - min data_min data_max) max_ticks = .ok step ∧
      tick_values data_min data_max max_ticks = .ok l ∧
      0 < step ∧
      l.Pairwise (· < ·) ∧
      (∀ v ∈ l, ∃ k : ℤ, v = (k : ℚ) * step) ∧
      l.head? = some ((⌊min data_min data_max / step⌋ : ℚ) * step) ∧
      l.getLast? = some ((⌈max data_min data_max / step⌉ : ℚ) * step) ∧
      (⌊min data_min data_max / step⌋ : ℚ) * step ≤ min data_min data_max ∧
      max data_min data_max ≤ (⌈max data_min data_max / step⌉ : ℚ) * step)

lemma tick_step_pos {r T : ℚ} (hr : 0 < r / T) :
    ∃ s, tick_step r T = .ok s ∧ 0 < s := by
  simp only [tick_step]
  rw [if_neg (not_le.mpr hr)]
  have hmg : (0 : ℚ) < (10 : ℚ) ^ flog10 (r / T) := zpow_pos (by norm_num) _
  refine ⟨_, rfl, ?_⟩
  split_ifs
  · exact mul_pos (by norm_num) hmg
  · exact mul_pos (by norm_num) hmg
  · exact mul_pos (by norm_num) hmg
  · exact hmg

lemma range_map_getLast (f : ℕ → ℚ) (n : ℕ) :
    ((List.range (n + 1)).map f).getLast? = some (f n) := by
  rw [List.range_succ, List.map_append]
  simp

lemma range_map_head (f : ℕ → ℚ) (n : ℕ) :
    ((List.range (n + 1)).map f).head? = some (f 0) := by
  rw [List.range_succ_eq_map]
  simp

/-- C6: `tick_step(95,10) = 10` and `tick_values(0,95,10)` is the ascending
multiples of 10 from 0 to 100; in general, for positive `max_ticks`,
`tick_values` satisfies `TickSpec`: empty iff the endpoints are within
`1e-9`, otherwise ascending multiples of the computed step bracketing
`[min,max]` with one extra tick of padding on the high end. -/
theorem C6_tick_generation :
    tick_step 95 10 = .ok 10 ∧
    tick_values 0 95 10 = .ok [0, 10, 20, 30, 40, 50, 60, 70, 80, 90, 100] ∧
    ∀ data_min data_max max_ticks : ℚ, 0 < max_ticks →
      TickSpec data_min data_max max_ticks := by
  refine ⟨?_, ?_, ?_⟩
  · norm_num [tick_step, flog10, natLog10, natLog10Aux]
  · have hc : (⌈(19:ℚ)/2⌉ : ℤ) = 10 := by
      rw [Int.ceil_eq_iff] <;> norm_num
    norm_num [tick_values, tick_step, flog10, natLog10, natLog10Aux, hc,
              show Int.toNat 11 = 11 from rfl, List.range_succ]
  · intro mn mx T hT
    constructor
    · intro hsmall
      unfold tick_values
      rw [if_pos]
      rw [show (1:ℚ) / (10:ℚ) ^ 9 = 1 / 1000000000 by norm_num]
      exact hsmall
    · intro hbig
      have hne : mn ≠ mx := by
        intro e
        rw [e] at hbig
        simp at hbig
        linarith
      have hlt : min mn mx < max mn mx := min_lt_max.mpr hne
      have hr : 0 < (max mn mx - min mn mx) / T := div_pos (by linarith) hT
      obtain ⟨s, hs, hspos⟩ := tick_step_pos hr
      have e1 : (if mn > mx then mx else mn) = min mn mx := by
        rcases lt_or_le mx mn with h | h
        · rw [if_pos h, min_eq_right h.le]
        · rw [if_neg (not_lt.mpr h), min_eq_left h]
      have e2 : (if mn > mx then mn else mx) = max mn mx := by
        rcases lt_or_le mx mn with h | h
        · rw [if_pos h, max_eq_left h.le]
        · rw [if_neg (not_lt.mpr h), max_eq_right h]
      have hno : ¬ |mn - mx| < 1 / (10:ℚ) ^ 9 := by
        rw [show (1:ℚ) / (10:ℚ) ^ 9 = 1 / 1000000000 by norm_num]
        exact not_lt.mpr hbig
      have htv : tick_values mn mx T =
          .ok ((List.range ((⌈max mn mx / s⌉ + 1 - ⌊min mn mx / s⌋).toNat)).map
                (fun (i : ℕ) => ((⌊min mn mx / s⌋ + (i : ℤ) : ℤ) : ℚ) * s)) := by
        simp only [tick_values, e1, e2, hs, if_neg hno]
      set imin : ℤ := ⌊min mn mx / s⌋ with him
      set imax : ℤ := ⌈max mn mx / s⌉ with hima
      have hfc : imin ≤ imax := by
        have h1 : (imin : ℚ) ≤ min mn mx / s := Int.floor_le _
        have h2 : max mn mx / s ≤ (imax : ℚ) := Int.le_ceil _
        have h3 : min mn mx / s ≤ max mn mx / s :=
          (div_le_div_iff_of_pos_right hspos).mpr hlt.le
        exact_mod_cast le_trans h1 (le_trans h3 h2)
      obtain ⟨m, hm⟩ : ∃ m, (imax + 1 - imin).toNat = m + 1 :=
        ⟨(imax + 1 - imin).toNat - 1, by omega⟩
      refine ⟨s, _, hs, htv, hspos, ?_, ?_, ?_, ?_, ?_, ?_⟩
      · refine List.Pairwise.map _ ?_ (List.pairwise_lt_range _)
        intro a b hab
        exact mul_lt_mul_of_pos_right (Int.cast_lt.mpr (by omega)) hspos
      · intro v hv
        simp only [List.mem_map] at hv
        obtain ⟨i, -, rfl⟩ := hv
        exact ⟨imin + i, rfl⟩
      · rw [hm, range_map_head]
        norm_num
      · rw [hm, range_map_getLast]
        have hmi : imin + (m : ℤ) = imax := by omega
        have := congrArg (fun z : ℤ => ((z : ℚ) * s)) hmi
        simpa using this
      · have h1 : (imin : ℚ) ≤ min mn mx / s := Int.floor_le _
        calc (imin : ℚ) * s ≤ (min mn mx / s) * s :=
              mul_le_mul_of_nonneg_right h1 hspos.le
          _ = min mn mx := div_mul_cancel₀ _ (ne_of_gt hspos)
      · have h2 : max mn mx / s ≤ (imax : ℚ) := Int.le_ceil _
        calc max mn mx = (max mn mx / s) * s := (div_mul_cancel₀ _ (ne_of_gt hspos)).symm
          _ ≤ (imax : ℚ) * s := mul_le_mul_of_nonneg_right h2 hspos.le

/-- Witness for C6 at `tick_values(0, 95, 10)`. -/
theorem C6_witness : (0:ℚ) < 10 ∧ TickSpec 0 95 10 :=
  ⟨by norm_num, C6_tick_generation.2.2 0 95 10 (by norm_num)⟩

/-- Witness for C7: the negative-marker rule applied to `123E$NG10`, and
plain-float parsing of a marker-free token. -/
theorem C7_witness :
    "123E$NG10".data.head? ≠ some '$' ∧
    alt_float ('$' :: 'N' :: 'G' :: "123E$NG10".data) =
      (alt_float "123E$NG10".data).map Neg.neg ∧
    '$' ∉ "0.5".data ∧
    alt_float "0.5".data = pyFloat "0.5".data :=
  ⟨by decide, C7_alt_float_convention.1 "123E$NG10".data (by decide), by decide,
   C7_alt_float_convention.2.2.2 "0.5".data (by decide)⟩

end Gterm
